import Mathlib

/-!
Verification of the `rocstrenv` rock-strength envelope library.

The library has two stateless modules:
* `BartonBandis.py` — length-scaling of joint parameters (`BBscaling`) and
  pointwise evaluation of the Barton-Bandis shear-strength criterion (`BBenv`);
* `HoekBrown.py` — derivation of Hoek-Brown rock-mass constants, sampling of
  the failure envelope (`HBenv`), and extraction of equivalent Mohr-Coulomb
  friction/cohesion from a fitted curve (`MCstrength_from_HBenv`).

The embedding below models machine floats by real numbers, numpy arrays by
lists of reals, and numpy's NaN sentinel by `Option ℝ` (`none` = NaN).  The
scipy `UnivariateSpline` is an injected capability: `MCstrength_from_HBenv`
receives the curve and its first derivative as plain functions `ℝ → ℝ`,
exactly the interface the source queries (`sign_tau(x)` and `sign_tau(x, 1)`).
-/

namespace Rocstrenv

/-- `np.radians(d)`: degrees to radians, `d * π / 180`. -/
noncomputable def radians (d : ℝ) : ℝ := d * Real.pi / 180

/-- `np.degrees(r)`: radians to degrees, `r * 180 / π`. -/
noncomputable def degrees (r : ℝ) : ℝ := r * 180 / Real.pi

/-! ### BartonBandis.py -/

/-- `BBscaling(JRC0, JCS0, Ln)` (BartonBandis.py, eqs. 9 and 10):
`JRCn = JRC0*(Ln/L0)**(-0.02*JRC0)` and `JCSn = JCS0*(Ln/L0)**(-0.03*JRC0)`
with the reference length `L0 = 0.1` m. -/
noncomputable def BBscaling (JRC0 JCS0 Ln : ℝ) : ℝ × ℝ :=
  (JRC0 * (Ln / 0.1) ^ (-0.02 * JRC0), JCS0 * (Ln / 0.1) ^ (-0.03 * JRC0))

/-- Effective friction angle `Phi = JRCn*log10(JCSn/sig_n) + phi_r`
(BartonBandis.py, eq. 4), for a single positive normal stress. -/
noncomputable def BBphi (JRC0 JCS0 phi_r Ln x : ℝ) : ℝ :=
  (BBscaling JRC0 JCS0 Ln).1 * Real.logb 10 ((BBscaling JRC0 JCS0 Ln).2 / x) + phi_r

/-- Shear strength `tau = sig_n*tan(radians(Phi))` (BartonBandis.py),
for a single positive normal stress. -/
noncomputable def BBtau (JRC0 JCS0 phi_r Ln x : ℝ) : ℝ :=
  x * Real.tan (radians (BBphi JRC0 JCS0 phi_r Ln x))

/-- One element of `BBenv`: non-positive normal stresses are replaced by NaN
(`np.where(sig_n>0, sig_n, np.nan)`), which propagates to a NaN output; for a
positive stress the result is kept only when `Phi < 85` and `tau > 0`
(`np.where((Phi<85)&(tau>0), tau, np.nan)`).  `none` models NaN. -/
noncomputable def BBenvPoint (JRC0 JCS0 phi_r Ln x : ℝ) : Option ℝ :=
  if x ≤ 0 then none
  else if BBphi JRC0 JCS0 phi_r Ln x < 85 ∧ 0 < BBtau JRC0 JCS0 phi_r Ln x then
    some (BBtau JRC0 JCS0 phi_r Ln x)
  else none

/-- `BBenv(sig_n, JRC0, JCS0, phi_r, Ln)` (BartonBandis.py): elementwise
evaluation of the Barton-Bandis criterion over the input array. -/
noncomputable def BBenv (sig_n : List ℝ) (JRC0 JCS0 phi_r Ln : ℝ) : List (Option ℝ) :=
  sig_n.map (BBenvPoint JRC0 JCS0 phi_r Ln)

/-! ### Claims C7, C8, C9 -/

/-- **C7.** For every input array to `BBenv`, the output array has the same
length and ordering as the input (element `i` of the output is the pointwise
evaluation of element `i` of the input); every element with `σn ≤ 0` maps to
the NaN sentinel, and the output is likewise the NaN sentinel wherever
`Φ ≥ 85°` or `τ ≤ 0`. -/
theorem C7_bbenv_sentinels (sig_n : List ℝ) (JRC0 JCS0 phi_r Ln : ℝ) :
    (BBenv sig_n JRC0 JCS0 phi_r Ln).length = sig_n.length ∧
    ∀ i x, sig_n.get? i = some x →
      (BBenv sig_n JRC0 JCS0 phi_r Ln).get? i = some (BBenvPoint JRC0 JCS0 phi_r Ln x) ∧
      (x ≤ 0 → (BBenv sig_n JRC0 JCS0 phi_r Ln).get? i = some none) ∧
      ((85 ≤ BBphi JRC0 JCS0 phi_r Ln x ∨ BBtau JRC0 JCS0 phi_r Ln x ≤ 0) →
        (BBenv sig_n JRC0 JCS0 phi_r Ln).get? i = some none) := by
  refine ⟨List.length_map _ _, fun i x hx => ?_⟩
  have hmap : (BBenv sig_n JRC0 JCS0 phi_r Ln).get? i
      = some (BBenvPoint JRC0 JCS0 phi_r Ln x) := by
    rw [BBenv, List.get?_map, hx, Option.map_some']
  refine ⟨hmap, fun hle => ?_, fun hbad => ?_⟩
  · rw [hmap, BBenvPoint, if_pos hle]
  · rw [hmap, BBenvPoint]
    by_cases hpos : x ≤ 0
    · rw [if_pos hpos]
    · rw [if_neg hpos, if_neg]
      rintro ⟨h85, htau⟩
      rcases hbad with h | h
      · exact absurd h85 (not_lt.mpr h)
      · exact absurd htau (not_lt.mpr h)

/-- Witness for C7 at the concrete input `sig_n = [-1]`: the single
non-positive entry maps to the NaN sentinel. -/
theorem C7_bbenv_sentinels_witness :
    ([(-1 : ℝ)].get? 0 = some (-1) ∧ (-1 : ℝ) ≤ 0) ∧
    (BBenv [(-1 : ℝ)] 0 1 45 0.1).get? 0 = some none := by
  refine ⟨⟨rfl, by norm_num⟩, ?_⟩
  exact ((C7_bbenv_sentinels [(-1 : ℝ)] 0 1 45 0.1).2 0 (-1) rfl).2.1 (by norm_num)

/-- **C8.** `BBscaling` is the identity at the reference length `Ln = 0.1` m:
for `JRC0 > 0`, `JCS0 > 0` it returns `(JRC0, JCS0)` unchanged. -/
theorem C8_scaling_identity (JRC0 JCS0 : ℝ) (h1 : 0 < JRC0) (h2 : 0 < JCS0) :
    BBscaling JRC0 JCS0 0.1 = (JRC0, JCS0) := by
  have h : (0.1 : ℝ) / 0.1 = 1 := div_self (by norm_num)
  simp [BBscaling, h, Real.one_rpow]

/-- Witness for C8 at `JRC0 = JCS0 = 1`. -/
theorem C8_scaling_identity_witness :
    ((0 : ℝ) < 1 ∧ (0 : ℝ) < 1) ∧ BBscaling 1 1 0.1 = (1, 1) :=
  ⟨⟨by norm_num, by norm_num⟩, C8_scaling_identity 1 1 (by norm_num) (by norm_num)⟩

/-- **C9.** For `JRC0 > 0`, `JCS0 > 0` and lengths `0.1 ≤ Ln₁ < Ln₂`, both
scaled values strictly decrease: each component of `BBscaling JRC0 JCS0 Ln₂`
is strictly smaller than the corresponding component at `Ln₁`. -/
theorem C9_scaling_decreasing (JRC0 JCS0 L1 L2 : ℝ) (h1 : 0 < JRC0) (h2 : 0 < JCS0)
    (hL1 : 0.1 ≤ L1) (hL : L1 < L2) :
    (BBscaling JRC0 JCS0 L2).1 < (BBscaling JRC0 JCS0 L1).1 ∧
    (BBscaling JRC0 JCS0 L2).2 < (BBscaling JRC0 JCS0 L1).2 := by
  have hb1 : (0 : ℝ) < L1 / 0.1 := by
    apply div_pos (lt_of_lt_of_le (by norm_num) hL1) (by norm_num)
  have hbb : L1 / 0.1 < L2 / 0.1 := by gcongr
  constructor
  · have he : -0.02 * JRC0 < 0 := by nlinarith
    exact mul_lt_mul_of_pos_left (Real.rpow_lt_rpow_of_neg hb1 hbb he) h1
  · have he : -0.03 * JRC0 < 0 := by nlinarith
    exact mul_lt_mul_of_pos_left (Real.rpow_lt_rpow_of_neg hb1 hbb he) h2

/-- Witness for C9 at `JRC0 = JCS0 = 1`, `Ln₁ = 0.1`, `Ln₂ = 0.2`. -/
theorem C9_scaling_decreasing_witness :
    ((0 : ℝ) < 1 ∧ (0 : ℝ) < 1 ∧ (0.1 : ℝ) ≤ 0.1 ∧ (0.1 : ℝ) < 0.2) ∧
    (BBscaling 1 1 0.2).1 < (BBscaling 1 1 0.1).1 ∧
    (BBscaling 1 1 0.2).2 < (BBscaling 1 1 0.1).2 :=
  ⟨⟨by norm_num, by norm_num, le_refl _, by norm_num⟩,
    C9_scaling_decreasing 1 1 0.1 0.2 (by norm_num) (by norm_num) (le_refl _) (by norm_num)⟩

/-! ### MCstrength_from_HBenv (HoekBrown.py) -/

/-- The range check `sign[np.where((sign>sign_min)&(sign<=sign_max))]`
(HoekBrown.py, `MCstrength_from_HBenv`): keep exactly the entries in the
open-closed interval `(sign_min, sign_max]`. -/
noncomputable def MCfiltered (sign : List ℝ) (sign_min sign_max : ℝ) : List ℝ :=
  sign.filter (fun x => decide (sign_min < x ∧ x ≤ sign_max))

/-- `MCstrength_from_HBenv(sign, sign_tau, sign_min, sign_max)` (HoekBrown.py):
after filtering the normal stresses to `(sign_min, sign_max]`, returns
`phi = degrees(arctan(sign_tau(sign, 1)))` and
`coh = sign_tau(sign) - sign_tau(sign, 1)*sign`.  The scipy spline is the
injected curve `f` with first derivative `f'` (the source's `sign_tau(x)` and
`sign_tau(x, 1)`). -/
noncomputable def MCstrength_from_HBenv (sign : List ℝ) (f f' : ℝ → ℝ)
    (sign_min sign_max : ℝ) : List ℝ × List ℝ :=
  ((MCfiltered sign sign_min sign_max).map (fun x => degrees (Real.arctan (f' x))),
   (MCfiltered sign sign_min sign_max).map (fun x => f x - f' x * x))

/-! ### Claims C3, C4, C10 -/

/-- **C3.** Tangent-line round trip: for every `σn` retained by
`MCstrength_from_HBenv` (the `i`-th element `x` of the filtered input), the
outputs at position `i` satisfy `x * tan(radians φ) + coh = f x`, i.e.
converting the returned friction angle back to a slope and rebuilding the
tangent line reproduces the curve's direct evaluation at `x`. -/
theorem C3_tangent_roundtrip (sign : List ℝ) (f f' : ℝ → ℝ) (lo hi : ℝ) (i : ℕ) (x : ℝ)
    (hx : (MCfiltered sign lo hi).get? i = some x) :
    ∃ phi coh,
      (MCstrength_from_HBenv sign f f' lo hi).1.get? i = some phi ∧
      (MCstrength_from_HBenv sign f f' lo hi).2.get? i = some coh ∧
      x * Real.tan (radians phi) + coh = f x := by
  refine ⟨degrees (Real.arctan (f' x)), f x - f' x * x, ?_, ?_, ?_⟩
  · rw [MCstrength_from_HBenv, List.get?_map, hx, Option.map_some']
  · rw [MCstrength_from_HBenv, List.get?_map, hx, Option.map_some']
  · have hdeg : radians (degrees (Real.arctan (f' x))) = Real.arctan (f' x) := by
      rw [radians, degrees]
      field_simp
    rw [hdeg, Real.tan_arctan]
    ring

/-- Witness for C3 at `sign = [1]`, `f = const 2`, `f' = const 3`,
domain `(0, 2]`, position `i = 0`. -/
theorem C3_tangent_roundtrip_witness :
    (MCfiltered [1] 0 2).get? 0 = some 1 ∧
    ∃ phi coh,
      (MCstrength_from_HBenv [1] (fun _ => 2) (fun _ => 3) 0 2).1.get? 0 = some phi ∧
      (MCstrength_from_HBenv [1] (fun _ => 2) (fun _ => 3) 0 2).2.get? 0 = some coh ∧
      (1 : ℝ) * Real.tan (radians phi) + coh = 2 := by
  have hx : (MCfiltered [1] 0 2).get? 0 = some 1 := by
    have : ((0 : ℝ) < 1 ∧ (1 : ℝ) ≤ 2) := by norm_num
    simp [MCfiltered, List.filter, this]
  exact ⟨hx, C3_tangent_roundtrip [1] (fun _ => 2) (fun _ => 3) 0 2 0 1 hx⟩

/-- **C4 (amended).** The retained normal stresses are exactly the input
elements in the open-closed interval `(sign_min, sign_max]`; in particular
`0` is retained iff `0` is in the input and `sign_min < 0 ≤ sign_max` (not
`sign_min < 0 < sign_max` as originally claimed: the upper comparison in the
source is `<=`, so `0` is also kept when `sign_max = 0`). -/
theorem C4_filter_interval (sign : List ℝ) (lo hi x : ℝ) :
    x ∈ MCfiltered sign lo hi ↔ x ∈ sign ∧ lo < x ∧ x ≤ hi := by
  simp [MCfiltered, List.mem_filter]

/-- Counterexample to C4 as stated: with input `[0]` and domain
`(domain_min, domain_max] = (-1, 0]`, the value `0` is retained by
`MCstrength_from_HBenv`'s filter even though `domain_min < 0 < domain_max`
fails (`domain_max = 0`), so "otherwise 0 is filtered out" is false. -/
theorem C4_counterexample :
    (0 : ℝ) ∈ MCfiltered [0] (-1) 0 ∧ ¬((-1 : ℝ) < 0 ∧ (0 : ℝ) < 0) := by
  constructor
  · have : ((-1 : ℝ) < 0 ∧ (0 : ℝ) ≤ 0) := by norm_num
    simp [MCfiltered, List.filter, this]
  · rintro ⟨-, h⟩
    exact lt_irrefl 0 h

/-- **C10.** The two arrays returned by `MCstrength_from_HBenv` always have
equal length, namely the number of input elements in `(sign_min, sign_max]`;
when no element is in range the call returns two empty arrays. -/
theorem C10_output_lengths (sign : List ℝ) (f f' : ℝ → ℝ) (lo hi : ℝ) :
    (MCstrength_from_HBenv sign f f' lo hi).1.length
        = sign.countP (fun x => decide (lo < x ∧ x ≤ hi)) ∧
    (MCstrength_from_HBenv sign f f' lo hi).2.length
        = sign.countP (fun x => decide (lo < x ∧ x ≤ hi)) ∧
    ((∀ x ∈ sign, ¬(lo < x ∧ x ≤ hi)) →
      MCstrength_from_HBenv sign f f' lo hi = ([], [])) := by
  have hlen : (MCfiltered sign lo hi).length
      = sign.countP (fun x => decide (lo < x ∧ x ≤ hi)) := by
    rw [MCfiltered, List.countP_eq_length_filter]
  refine ⟨?_, ?_, fun hnone => ?_⟩
  · rw [MCstrength_from_HBenv]; simpa using hlen
  · rw [MCstrength_from_HBenv]; simpa using hlen
  · have hnil : MCfiltered sign lo hi = [] := by
      rw [MCfiltered, List.filter_eq_nil]
      intro a ha
      simpa using hnone a ha
    rw [MCstrength_from_HBenv, hnil]
    simp

/-- Witness for C10's empty-range case at `sign = [5]`, domain `(0, 1]`. -/
theorem C10_output_lengths_witness :
    (∀ x ∈ ([5] : List ℝ), ¬((0 : ℝ) < x ∧ x ≤ 1)) ∧
    MCstrength_from_HBenv [5] (fun x => x) (fun _ => 1) 0 1 = ([], []) := by
  have h : ∀ x ∈ ([5] : List ℝ), ¬((0 : ℝ) < x ∧ x ≤ 1) := by
    intro x hx
    simp only [List.mem_singleton] at hx
    subst hx
    rintro ⟨-, h1⟩
    norm_num at h1
  exact ⟨h, (C10_output_lengths [5] (fun x => x) (fun _ => 1) 0 1).2.2 h⟩

/-! ### HBenv (HoekBrown.py) -/

/-- The six caller-supplied rock-mass parameters of `HBenv`, already coerced
to real numbers (`GSI,D,mi,sig_ci,uw,H = float(...)`). -/
structure HBParams where
  GSI : ℝ
  D : ℝ
  mi : ℝ
  sig_ci : ℝ
  uw : ℝ
  H : ℝ

/-- `mb = mi*exp((GSI-100)/(28-(14*D)))` (HoekBrown.py, eq. 3). -/
noncomputable def HBmb (p : HBParams) : ℝ :=
  p.mi * Real.exp ((p.GSI - 100) / (28 - 14 * p.D))

/-- `s = exp((GSI-100)/(9-(3*D)))` (HoekBrown.py, eq. 4). -/
noncomputable def HBs (p : HBParams) : ℝ :=
  Real.exp ((p.GSI - 100) / (9 - 3 * p.D))

/-- `a = 0.5+(exp(-GSI/15.)-exp(-20/3.))/6.` (HoekBrown.py, eq. 5). -/
noncomputable def HBa (p : HBParams) : ℝ :=
  0.5 + (Real.exp (-p.GSI / 15) - Real.exp (-20 / 3)) / 6

/-- `sig_t = -s*sig_ci/mb` (HoekBrown.py, eq. 7). -/
noncomputable def HBsig_t (p : HBParams) : ℝ :=
  -HBs p * p.sig_ci / HBmb p

/-- `sig_cm = sig_ci*(mb+4*s-a*(mb-8*s))*(0.25*mb+s)**(a-1)/(2*(1+a)*(2+a))`
(HoekBrown.py, eq. 17). -/
noncomputable def HBsig_cm (p : HBParams) : ℝ :=
  p.sig_ci * (HBmb p + 4 * HBs p - HBa p * (HBmb p - 8 * HBs p)) *
    (0.25 * HBmb p + HBs p) ^ (HBa p - 1) / (2 * (1 + HBa p) * (2 + HBa p))

/-- `sig3max = 0.72*sig_cm*(sig_cm/(uw*H))**(-0.91)` (HoekBrown.py, eq. 19). -/
noncomputable def HBsig3max (p : HBParams) : ℝ :=
  0.72 * HBsig_cm p * (HBsig_cm p / (p.uw * p.H)) ^ (-(0.91 : ℝ))

/-- The intermediate constants computed inside the `try` block of `HBenv`
(stage 1, lines 50-62). -/
structure HBConsts where
  mb : ℝ
  s : ℝ
  a : ℝ
  sig_t : ℝ
  sig_cm : ℝ
  sig3max : ℝ

/-- The derivation performed by the `try` block of `HBenv`: all six constants
from the closed-form Hoek-Brown 2002 relations. -/
noncomputable def HBderive (p : HBParams) : HBConsts :=
  ⟨HBmb p, HBs p, HBa p, HBsig_t p, HBsig_cm p, HBsig3max p⟩

/-- Outcome of the stage-1/2 `try/except` block of `HBenv` (HoekBrown.py,
lines 50-64).  The `except` branch executes
`print "Error computing intermediate Hoek-Brown values"` and then *falls
through*: control continues into stage 3 with whatever names happen to be
bound; no error value is ever returned or raised to the caller.  There is no
error constructor because the function has no error channel. -/
inductive Stage2Outcome where
  | derived : HBConsts → Stage2Outcome
  | printedDiagnostic : Stage2Outcome

/-- The `try/except` of `HBenv` lines 50-64: a degenerate derivation — `mb = 0`
making `sig_t = -s*sig_ci/mb` a division by zero, the representative failure
named by the spec — lands in the `except` branch, which prints the diagnostic
and continues; a non-degenerate derivation binds the constants.  In neither
case does `HBenv` surface an error to the caller. -/
noncomputable def HBstage2 (p : HBParams) : Stage2Outcome :=
  if HBmb p = 0 then Stage2Outcome.printedDiagnostic
  else Stage2Outcome.derived (HBderive p)

/-- `np.linspace(a, b, n)`: `n` evenly spaced points from `a` to `b`. -/
noncomputable def linspace (a b : ℝ) (n : ℕ) : List ℝ :=
  (List.range n).map (fun i => a + (b - a) * i / ((n : ℝ) - 1))

/-- `np.logspace(a, b, n)`: `10` raised to `n` evenly spaced exponents from
`a` to `b` (numpy's default base is 10). -/
noncomputable def logspace (a b : ℝ) (n : ℕ) : List ℝ :=
  (linspace a b n).map (fun e => (10 : ℝ) ^ e)

/-- The fine linear part of the σ3 sample:
`np.linspace(sig_t*.9999, -0.9999*sig_t, 200)` (HoekBrown.py, line 67). -/
noncomputable def HBlinPart (p : HBParams) : List ℝ :=
  linspace (HBsig_t p * 0.9999) (-0.9999 * HBsig_t p) 200

/-- The logarithmically spaced part of the σ3 sample:
`np.logspace(np.log(-sig_t), np.log(5*sig3max), 50)` (HoekBrown.py, line 67).
Note the source passes *natural* logarithms as the exponent bounds while
`np.logspace` exponentiates base 10. -/
noncomputable def HBlogPart (p : HBParams) : List ℝ :=
  logspace (Real.log (-HBsig_t p)) (Real.log (5 * HBsig3max p)) 50

/-- The full σ3 sample `sig3 = np.sort(np.concatenate((...)))`
(HoekBrown.py, line 67): ascending sort of the merged linear and log parts. -/
noncomputable def HBsig3sample (p : HBParams) : List ℝ :=
  ((HBlinPart p) ++ (HBlogPart p)).mergeSort (fun x y => decide (x ≤ y))

/-- `sig1 = sig3+sig_ci*np.power((mb*sig3/sig_ci + s), a)` (HoekBrown.py,
eq. 2), as a pointwise function of one σ3 value. -/
noncomputable def HBsig1 (mb s a sig_ci sig3 : ℝ) : ℝ :=
  sig3 + sig_ci * (mb * sig3 / sig_ci + s) ^ a

/-- Head of a nonempty `logspace` sample: `10 ^ a`, the base-10 exponential of
the first exponent. -/
theorem logspace_head (a b : ℝ) (n : ℕ) (hn : n ≠ 0) :
    (logspace a b n).head? = some ((10 : ℝ) ^ a) := by
  obtain ⟨m, rfl⟩ := Nat.exists_eq_succ_of_ne_zero hn
  rw [logspace, linspace, List.range_succ_eq_map]
  simp

/-! ### Claims C1, C2, C5, C6 -/

/-- **C1 (code behaviour at the failing input).** At the degenerate parameter
set `GSI=60, D=0.5, mi=0, sig_ci=25, uw=0.024, H=20` the derivation gives
`mb = 0`, so `sig_t = -s*sig_ci/mb` is a division by zero; `HBenv` lands in
the `except` branch, which prints a diagnostic and continues — it does not
fail and does not surface any error to the caller, contradicting the claim. -/
theorem C1_print_and_continue :
    HBstage2 ⟨60, 0.5, 0, 25, 0.024, 20⟩ = Stage2Outcome.printedDiagnostic := by
  have h : HBmb ⟨60, 0.5, 0, 25, 0.024, 20⟩ = 0 := by
    simp [HBmb]
  rw [HBstage2, if_pos h]

/-- **C2 (code behaviour at the failing input).** At the valid parameter set
`GSI=100, D=0.5, mi=1, sig_ci=2, uw=0.024, H=20` (so `sig_t = -2`), the first
element of the logarithmically spaced sample is `10 ^ ln 2 = 2 ^ ln 10 ≠ 2`,
not `-sig_t = 2` as the claim states: the source feeds natural logs to
`np.logspace`, which exponentiates base 10, so the log sample does not cover
`[-sig_t, 5*sig3max]`. -/
theorem C2_logspace_start_mismatch :
    (HBlogPart ⟨100, 0.5, 1, 2, 0.024, 20⟩).head?
      ≠ some (-HBsig_t ⟨100, 0.5, 1, 2, 0.024, 20⟩) := by
  have hmb : HBmb ⟨100, 0.5, 1, 2, 0.024, 20⟩ = 1 := by
    norm_num [HBmb, Real.exp_zero]
  have hs : HBs ⟨100, 0.5, 1, 2, 0.024, 20⟩ = 1 := by
    norm_num [HBs, Real.exp_zero]
  have hsig_t : HBsig_t ⟨100, 0.5, 1, 2, 0.024, 20⟩ = -2 := by
    rw [HBsig_t, hmb, hs]
    norm_num
  rw [HBlogPart, hsig_t, logspace_head _ _ 50 (by norm_num)]
  norm_num
  intro hEq
  rw [Real.rpow_def_of_pos (by norm_num : (0 : ℝ) < 10)] at hEq
  have h2 : Real.exp (Real.log 2) = 2 := Real.exp_log (by norm_num)
  have hmul : Real.log 10 * Real.log 2 = Real.log 2 :=
    Real.exp_eq_exp.mp (by rw [hEq, h2])
  have hlog2 : 0 < Real.log 2 := Real.log_pos (by norm_num)
  have hlog10 : 1 < Real.log 10 := by
    rw [Real.lt_log_iff_exp_lt (by norm_num : (0 : ℝ) < 10)]
    calc Real.exp 1 < 2.7182818286 := Real.exp_one_lt_d9
      _ < 10 := by norm_num
  nlinarith

/-- **C5.** For every parameter set with `GSI ∈ [0,100]`, `D ∈ [0,1]`,
`mi > 0`, `sig_ci > 0`, `uw > 0`, `H > 0`, the derived constants satisfy
`sig_t ≤ 0 ≤ sig3max`, and in fact strictly `sig_t < 0 < sig3max` (so in
particular the spec's boundary case `GSI=60, D=0.5, mi=15, sig_ci=25,
uw=0.024, H=20` is strict — see the witness). -/
theorem C5_stress_bounds (p : HBParams) (hg0 : 0 ≤ p.GSI) (hg1 : p.GSI ≤ 100)
    (hd0 : 0 ≤ p.D) (hd1 : p.D ≤ 1) (hmi : 0 < p.mi) (hci : 0 < p.sig_ci)
    (huw : 0 < p.uw) (hH : 0 < p.H) :
    (HBsig_t p ≤ 0 ∧ 0 ≤ HBsig3max p) ∧ (HBsig_t p < 0 ∧ 0 < HBsig3max p) := by
  have hmb : 0 < HBmb p := mul_pos hmi (Real.exp_pos _)
  have hs : 0 < HBs p := Real.exp_pos _
  have hsig_t : HBsig_t p < 0 := by
    rw [HBsig_t]
    apply div_neg_of_neg_of_pos _ hmb
    nlinarith
  have he1 : Real.exp (-p.GSI / 15) ≤ 1 := by
    rw [Real.exp_le_one_iff]
    nlinarith
  have he2 : 0 < Real.exp (-20 / 3 : ℝ) := Real.exp_pos _
  have he3 : Real.exp (-20 / 3 : ℝ) ≤ 1 := by
    rw [Real.exp_le_one_iff]
    norm_num
  have he4 : 0 < Real.exp (-p.GSI / 15) := Real.exp_pos _
  have ha1 : HBa p < 1 := by
    rw [HBa]
    nlinarith
  have ha0 : 0 < HBa p := by
    rw [HBa]
    nlinarith
  have hB : 0 < HBmb p + 4 * HBs p - HBa p * (HBmb p - 8 * HBs p) := by
    nlinarith [mul_pos hmb (sub_pos.mpr ha1), mul_pos hs ha0]
  have hbase : 0 < 0.25 * HBmb p + HBs p := by nlinarith
  have hrp : 0 < (0.25 * HBmb p + HBs p) ^ (HBa p - 1) :=
    Real.rpow_pos_of_pos hbase _
  have hden : 0 < 2 * (1 + HBa p) * (2 + HBa p) := by nlinarith
  have hcm : 0 < HBsig_cm p := by
    rw [HBsig_cm]
    exact div_pos (mul_pos (mul_pos hci hB) hrp) hden
  have h3max : 0 < HBsig3max p := by
    rw [HBsig3max]
    have hq : 0 < HBsig_cm p / (p.uw * p.H) := div_pos hcm (mul_pos huw hH)
    have := Real.rpow_pos_of_pos hq (-(0.91 : ℝ))
    nlinarith
  exact ⟨⟨le_of_lt hsig_t, le_of_lt h3max⟩, hsig_t, h3max⟩

/-- Witness for C5 at the spec's boundary case
`GSI=60, D=0.5, mi=15, sig_ci=25, uw=0.024, H=20`: strictly
`sig_t < 0 < sig3max`. -/
theorem C5_stress_bounds_witness :
    ((0 : ℝ) ≤ 60 ∧ (60 : ℝ) ≤ 100 ∧ (0 : ℝ) ≤ 0.5 ∧ (0.5 : ℝ) ≤ 1 ∧
      (0 : ℝ) < 15 ∧ (0 : ℝ) < 25 ∧ (0 : ℝ) < 0.024 ∧ (0 : ℝ) < 20) ∧
    (HBsig_t ⟨60, 0.5, 15, 25, 0.024, 20⟩ < 0 ∧
      0 < HBsig3max ⟨60, 0.5, 15, 25, 0.024, 20⟩) :=
  ⟨⟨by norm_num, by norm_num, by norm_num, by norm_num, by norm_num, by norm_num,
      by norm_num, by norm_num⟩,
    (C5_stress_bounds ⟨60, 0.5, 15, 25, 0.024, 20⟩ (by norm_num) (by norm_num)
      (by norm_num) (by norm_num) (by norm_num) (by norm_num) (by norm_num)
      (by norm_num)).2⟩

/-- **C6.** For physically valid constants (`mb > 0`, `s ≥ 0`, `0 < a ≤ 1`,
`sig_ci > 0`) and σ3 values in the sampled domain (at or above
`sig_t = -s*sig_ci/mb`, below which the power's base turns negative), the
Hoek-Brown major principal stress `sig1(σ3) = σ3 + sig_ci*(mb*σ3/sig_ci+s)^a`
is non-decreasing in σ3. -/
theorem C6_sig1_monotone (mb s a sig_ci x y : ℝ) (hmb : 0 < mb) (hs : 0 ≤ s)
    (ha : 0 < a) (ha1 : a ≤ 1) (hci : 0 < sig_ci)
    (hx : -s * sig_ci / mb ≤ x) (hxy : x ≤ y) :
    HBsig1 mb s a sig_ci x ≤ HBsig1 mb s a sig_ci y := by
  have h1 : -s * sig_ci ≤ x * mb := (div_le_iff hmb).mp hx
  have hux : 0 ≤ mb * x / sig_ci + s := by
    have h2 : -s ≤ mb * x / sig_ci := by
      rw [le_div_iff hci]
      nlinarith
    linarith
  have huxy : mb * x / sig_ci + s ≤ mb * y / sig_ci + s := by gcongr
  have hr : (mb * x / sig_ci + s) ^ a ≤ (mb * y / sig_ci + s) ^ a :=
    Real.rpow_le_rpow hux huxy (le_of_lt ha)
  rw [HBsig1, HBsig1]
  have := mul_le_mul_of_nonneg_left hr (le_of_lt hci)
  linarith

/-- Witness for C6 at `mb=1, s=0, a=1, sig_ci=1` and the σ3 pair `(0, 1)`. -/
theorem C6_sig1_monotone_witness :
    ((0 : ℝ) < 1 ∧ (0 : ℝ) ≤ 0 ∧ (0 : ℝ) < 1 ∧ (1 : ℝ) ≤ 1 ∧
      -(0 : ℝ) * 1 / 1 ≤ 0 ∧ (0 : ℝ) ≤ 1) ∧
    HBsig1 1 0 1 1 0 ≤ HBsig1 1 0 1 1 1 :=
  ⟨⟨by norm_num, le_refl _, by norm_num, le_refl _, by norm_num, by norm_num⟩,
    C6_sig1_monotone 1 0 1 1 0 1 (by norm_num) (le_refl _) (by norm_num)
      (le_refl _) (by norm_num) (by norm_num) (by norm_num)⟩

end Rocstrenv
